import Mathlib

set_option maxHeartbeats 1000000
set_option linter.unnecessarySeqFocus false

/-!
Verification of the sample-sheet validation and normalization module
(`ilsa2/samplesheetv2.py`).  Python values appearing in sheets are either
strings or integers; a section is either a flat settings mapping or an
ordered list of row mappings.  All functions below are translated
statement-by-statement from the Python source; fallible Python code
(raising exceptions) is modelled with `Except String`.
-/

namespace Samshee

/-- Scalar value stored in a sample sheet: Python `str` or `int`. -/
inductive Value where
  | str (s : String)
  | int (n : Int)
deriving DecidableEq, Repr

/-- Flat settings mapping, in insertion order (Python `OrderedDict`). -/
abbrev Settings := List (String × Value)

/-- One data row (Python `OrderedDict` of column name to value). -/
abbrev Row := List (String × Value)

/-- Content of one section: settings-like or data-like. -/
inductive Section where
  | settings (kvs : Settings)
  | rows (rs : List Row)
deriving DecidableEq, Repr

/-- A sectioned sheet: ordered mapping from section name to content. -/
abbrev SectionedSheet := List (String × Section)

/-- First-match association lookup (Python dict lookup; keys are unique). -/
def alookup {α : Type} : List (String × α) → String → Option α
  | [], _ => none
  | kv :: rest, k => if kv.1 = k then some kv.2 else alookup rest k

/-- Python `k in d` membership test on a mapping. -/
def hasKey {α : Type} (l : List (String × α)) (k : String) : Bool :=
  (alookup l k).isSome

/-- Membership test on one row. -/
def rowHas (r : Row) (k : String) : Bool := hasKey r k

/-- Python `k in section`: on a settings dict this is a key test; on a
list-valued (data) section, `in` compares the string against the row
dicts and is always `False`. -/
def secHasKey : Section → String → Bool
  | .settings kvs, k => hasKey kvs k
  | .rows _, _ => false

/-- Python `section[k]`: key lookup on a settings dict (`KeyError` if
missing); indexing a list with a string raises `TypeError`. -/
def secGetItem : Section → String → Except String Value
  | .settings kvs, k =>
      match alookup kvs k with
      | some v => .ok v
      | none => .error ("KeyError: " ++ k)
  | .rows _, _ => .error "TypeError: list indices must be integers"

/-- Python `doc[k]` on the sheet itself (`KeyError` if absent). -/
def getSec (doc : SectionedSheet) (k : String) : Except String Section :=
  match alookup doc k with
  | some s => .ok s
  | none => .error ("KeyError: " ++ k)

/-- Python `row[k]` (`KeyError` if the column is absent). -/
def rowGet (r : Row) (k : String) : Except String Value :=
  match alookup r k with
  | some v => .ok v
  | none => .error ("KeyError: " ++ k)

/-- Python `len` on a sheet value: defined on strings, `TypeError` on ints. -/
def pyLen : Value → Except String Nat
  | .str s => .ok s.length
  | .int _ => .error "TypeError: object of type 'int' has no len()"

/-- Python `len` of a section: row count for a data section, key count
for a settings dict. -/
def pySecLen : Section → Nat
  | .settings kvs => kvs.length
  | .rows rs => rs.length

/-- Conversion used by f-strings: `str(value)`. -/
def pyStr : Value → String
  | .str s => s
  | .int n => toString n

/-- Python `v != n` where `n` is an `int`: values of different types are
never equal, so a `str` compares unequal to every int. -/
def pyValNeNat : Value → Nat → Bool
  | .int m, n => decide (m ≠ (n : Int))
  | .str _, _ => true

/-- Python `a + b` on sheet values: string or integer addition, `TypeError`
on mixed operands. -/
def pyAdd : Value → Value → Except String Value
  | .str a, .str b => .ok (.str (a ++ b))
  | .int a, .int b => .ok (.int (a + b))
  | _, _ => .error "TypeError: unsupported operand types for +"

/-- Python `value.split`-style guard: the cycle string must be a `str`;
`split` on an `int` raises `AttributeError`. -/
def pyAsStr : Value → Except String String
  | .str s => .ok s
  | .int _ => .error "AttributeError: 'int' object has no attribute 'split'"

/-! ### The OverrideCycles expander (`parse_overrideCycles`) -/

/-- Character class `[NYIU]` of the regular expression in `expand`. -/
def isNYIU (c : Char) : Bool :=
  c == 'N' || c == 'Y' || c == 'I' || c == 'U'

/-- Numeric value of a run of decimal digits. -/
def digitsToNat (ds : List Char) : Nat :=
  ds.foldl (fun acc c => acc * 10 + (c.toNat - 48)) 0

/-- Python `int(freq)` where `freq` came from the group `([0-9]*)`: the
empty string raises `ValueError`, a non-empty digit run converts. -/
def pyIntDigits (ds : List Char) : Except String Nat :=
  match ds with
  | [] => .error "ValueError: invalid literal for int() with base 10: ''"
  | _ => .ok (digitsToNat ds)

/-- Python `s * n` for a string `s` (concatenation of `n` copies). -/
def pyStrMul (s : List Char) (n : Nat) : List Char :=
  (List.replicate n s).flatten

/-- Scan of `re.findall` for the pattern `([NYIU]+)([0-9]*);?`: find
non-overlapping matches left to right, skipping characters that cannot
start a match.  `fuel` bounds the recursion; it is always called with
`fuel = length` of the scanned list, which suffices because every step
consumes at least one character. -/
def findallOCAux : Nat → List Char → List (List Char × List Char)
  | 0, _ => []
  | _ + 1, [] => []
  | fuel + 1, c :: rest =>
    if isNYIU c then
      let letters := (c :: rest).takeWhile isNYIU
      let r1 := (c :: rest).dropWhile isNYIU
      let digits := r1.takeWhile Char.isDigit
      let r2 := r1.dropWhile Char.isDigit
      let r3 := match r2 with
        | ';' :: t => t
        | other => other
      (letters, digits) :: findallOCAux fuel r3
    else
      findallOCAux fuel rest

/-- `re.findall(re.compile "([NYIU]+)([0-9]*);?", s)`. -/
def findallOC (l : List Char) : List (List Char × List Char) :=
  findallOCAux l.length l

/-- Loop body of `expand`: `for letter, freq in matches: res += letter * int(freq)`. -/
def expandMatches : List (List Char × List Char) → Except String (List Char)
  | [] => .ok []
  | lf :: rest => do
    let n ← pyIntDigits lf.2
    let tail ← expandMatches rest
    pure (pyStrMul lf.1 n ++ tail)

/-- The inner `expand` helper of `parse_overrideCycles`. -/
def expandSeg (seg : List Char) : Except String (List Char) :=
  expandMatches (findallOC seg)

/-- Python `cyclestr.split(";")`: note the result is never empty (the
empty string splits to `[""]`). -/
def pySplitSemi : List Char → List (List Char)
  | [] => [[]]
  | c :: rest =>
    if c = ';' then [] :: pySplitSemi rest
    else
      match pySplitSemi rest with
      | [] => [[c]]
      | s :: ss => (c :: s) :: ss

/-- Translation of `parse_overrideCycles`: split on `;`, expand each
segment, and assign segment names positionally by segment count.  The
result keeps the Python dict's insertion order. -/
def parse_overrideCycles (cyclestr : String) : Except String (List (String × String)) :=
  let cycles := pySplitSemi cyclestr.data
  if cycles.length < 1 then
    .error ("OverrideCycles " ++ cyclestr ++ " cannot be parsed to a cycle sequence.")
  else do
    let e0 ← expandSeg (cycles.getD 0 [])
    if cycles.length = 2 then do
      let e1 ← expandSeg (cycles.getD 1 [])
      pure [("Read1Cycles", String.mk e0), ("Read2Cycles", String.mk e1)]
    else if cycles.length = 3 then do
      let e1 ← expandSeg (cycles.getD 1 [])
      let e2 ← expandSeg (cycles.getD 2 [])
      pure [("Read1Cycles", String.mk e0), ("Index1Cycles", String.mk e1),
            ("Read2Cycles", String.mk e2)]
    else if cycles.length = 4 then do
      let e1 ← expandSeg (cycles.getD 1 [])
      let e2 ← expandSeg (cycles.getD 2 [])
      let e3 ← expandSeg (cycles.getD 3 [])
      pure [("Read1Cycles", String.mk e0), ("Index1Cycles", String.mk e1),
            ("Index2Cycles", String.mk e2), ("Read2Cycles", String.mk e3)]
    else if cycles.length = 1 then
      pure [("Read1Cycles", String.mk e0)]
    else
      .error ("OverrideCycles " ++ cyclestr ++ " defines too many elements.")

/-! ### The semantic validator (`illuminasamplesheetv2logic`)

The Python function is a sequence of independent rule blocks, each guarded
by a membership test; the translation gives each block its own definition
and composes them in source order.  An exception raised by an earlier
block prevents the later blocks from running. -/

/-- First loop of the OverrideCycles rule: every segment produced by the
expansion must be declared in Reads with a matching cycle count. -/
def cyclesLoop (doc : SectionedSheet) : List (String × String) → Except String Unit
  | [] => .ok ()
  | (elemname, elemseq) :: rest => do
    let reads ← getSec doc "Reads"
    if secHasKey reads elemname then do
      let v ← secGetItem reads elemname
      if pyValNeNat v elemseq.length then
        .error ("Reads." ++ elemname ++ " is " ++ pyStr v ++
          ", but BCLConvert_Settings.OverrideCycles specifies a length of " ++
          toString elemseq.length)
      else cyclesLoop doc rest
    else
      .error ("BCLConvert_Settings.OverrideCycles defines " ++ elemname ++
        ", but it is not specified in the Reads section")

/-- Second loop of the OverrideCycles rule.  Faithful to the source, the
candidate names are filtered by membership in `doc.keys()` — the top-level
section names — not in the Reads section. -/
def readsCoveredLoop (cycleNames : List String) : List String → Except String Unit
  | [] => .ok ()
  | n :: rest =>
    if cycleNames.contains n then readsCoveredLoop cycleNames rest
    else
      .error ("Reads defines " ++ n ++
        ", but BCLConvert_Settings.OverrideCycles is incompatible with it.")

/-- Rule block for `OverrideCycles` (source lines 194-204). -/
def checkOverrideCyclesRule (doc : SectionedSheet) : Except String Unit :=
  match alookup doc "BCLConvert_Settings" with
  | none => .ok ()
  | some bcl =>
    if secHasKey bcl "OverrideCycles" then do
      let v ← secGetItem bcl "OverrideCycles"
      let s ← pyAsStr v
      let cycles ← parse_overrideCycles s
      cyclesLoop doc cycles
      readsCoveredLoop (cycles.map Prod.fst)
        ((["Read1Cycles", "Read2Cycles", "Index1Cycles", "Index2Cycles"]).filter
          (fun i => hasKey doc i))
    else .ok ()

/-- Rule block for `AdapterRead1` (source lines 205-207).  The source
compares `len(AdapterRead1)` with `len(doc['Reads']['Read1Cycles'])`;
the second `len` is applied to the integer cycle count. -/
def checkAdapterRead1Rule (doc : SectionedSheet) : Except String Unit :=
  match alookup doc "BCLConvert_Settings" with
  | none => .ok ()
  | some bcl =>
    if secHasKey bcl "AdapterRead1" then do
      let a ← secGetItem bcl "AdapterRead1"
      let la ← pyLen a
      let reads ← getSec doc "Reads"
      let r1 ← secGetItem reads "Read1Cycles"
      let lr ← pyLen r1
      if la > lr then
        .error "BCLConvert_Settings.AdapterRead1 is longer then Reads.Read1Cycles"
      else .ok ()
    else .ok ()

/-- Rule block for `AdapterRead2` (source lines 208-212); the length
comparison applies `len` to the integer cycle count, as in the source. -/
def checkAdapterRead2Rule (doc : SectionedSheet) : Except String Unit :=
  match alookup doc "BCLConvert_Settings" with
  | none => .ok ()
  | some bcl =>
    if secHasKey bcl "AdapterRead2" then do
      let reads ← getSec doc "Reads"
      if secHasKey reads "Read2Cycles" then do
        let a ← secGetItem bcl "AdapterRead2"
        let la ← pyLen a
        let r2 ← secGetItem reads "Read2Cycles"
        let lr ← pyLen r2
        if la > lr then
          .error "BCLConvert_Settings.AdapterRead2 is longer then Reads.Read2Cycles"
        else .ok ()
      else
        .error "AdapterRead2 defined in BCLConvert_Settings, but no Read2Cycles entry in Reads"
    else .ok ()

/-- Rule block for `BarcodeMismatchesIndex1` (source lines 215-217). -/
def checkBarcodeMismatches1Rule (doc : SectionedSheet) : Except String Unit :=
  match alookup doc "BCLConvert_Settings" with
  | none => .ok ()
  | some bcl =>
    if secHasKey bcl "BarcodeMismatchesIndex1" then do
      let reads ← getSec doc "Reads"
      if secHasKey reads "Index1Cycles" then .ok ()
      else .error "BCLConvert_Settings defines BarcodeMismatches1, but no Index1Cycles defined in Reads."
    else .ok ()

/-- Rule block for `BarcodeMismatchesIndex2` (source lines 218-220). -/
def checkBarcodeMismatches2Rule (doc : SectionedSheet) : Except String Unit :=
  match alookup doc "BCLConvert_Settings" with
  | none => .ok ()
  | some bcl =>
    if secHasKey bcl "BarcodeMismatchesIndex2" then do
      let reads ← getSec doc "Reads"
      if secHasKey reads "Index2Cycles" then .ok ()
      else .error "BCLConvert_Settings defines BarcodeMismatches2, but no Index2Cycles defined in Reads."
    else .ok ()

/-- The list comprehension `[i[k] for i in rows]`. -/
def mapRowsGet (k : String) : List Row → Except String (List Value)
  | [] => .ok []
  | r :: rest => do
    let v ← rowGet r k
    let vs ← mapRowsGet k rest
    pure (v :: vs)

/-- The comprehension `[i1 + i2 for i1, i2 in zip(index1, index2)]`. -/
def zipAdd : List (Value × Value) → Except String (List Value)
  | [] => .ok []
  | p :: rest => do
    let v ← pyAdd p.1 p.2
    let vs ← zipAdd rest
    pure (v :: vs)

/-- Index-uniqueness block over `BCLConvert_Data` (source lines 221-233).
`len(set(index)) != len(index)` is modelled by comparing the length of
the deduplicated list with the length of the list. -/
def checkBCLConvertData (doc : SectionedSheet) : Except String Unit :=
  match alookup doc "BCLConvert_Data" with
  | none => .ok ()
  | some sec =>
    if 1 < pySecLen sec then
      match sec with
      | .settings _ => .error "KeyError: 0"
      | .rows rs =>
        match rs with
        | [] => .ok ()
        | r0 :: _ =>
          if rowHas r0 "Index" then do
            let index1 ← mapRowsGet "Index" rs
            let index ←
              (if rowHas r0 "Index2" then do
                let index2 ← mapRowsGet "Index2" rs
                zipAdd (index1.zip index2)
              else pure index1)
            if index.dedup.length ≠ index.length then
              .error "Indices are not unique."
            else .ok ()
          else
            .error "No Index found in BCLConvert_Data, although it contains more than one sample"
    else .ok ()

/-- `illuminasamplesheetv2logic`: the semantic validator, composed of the
rule blocks in source order. -/
def illuminasamplesheetv2logic (doc : SectionedSheet) : Except String Unit := do
  checkOverrideCyclesRule doc
  checkAdapterRead1Rule doc
  checkAdapterRead2Rule doc
  checkBarcodeMismatches1Rule doc
  checkBarcodeMismatches2Rule doc
  checkBCLConvertData doc

/-! ### The cross-section validator (`basespacelogic`) -/

/-- Guard `if 'Cloud_Data' not in doc` (source lines 236-237). -/
def cloudGuard (doc : SectionedSheet) : Except String Unit :=
  if hasKey doc "Cloud_Data" then .ok () else .error "no Cloud_Data section"

/-- Guard `if 'BCLConvert_Data' not in doc` (source lines 238-239). -/
def convertGuard (doc : SectionedSheet) : Except String Unit :=
  if hasKey doc "BCLConvert_Data" then .ok () else .error "no BCLConvert_Data section"

/-- Iterating a section in a comprehension: a data section yields its
rows; iterating a settings dict yields key strings, and subscripting a
string with `'Sample_ID'` raises `TypeError`. -/
def secIterRows : Section → Except String (List Row)
  | .rows rs => .ok rs
  | .settings _ => .error "TypeError: string indices must be integers"

/-- `[i['Sample_ID'] for i in doc[secName]]`. -/
def computeSampleIds (doc : SectionedSheet) (secName : String) : Except String (List Value) := do
  let sec ← getSec doc secName
  let rs ← secIterRows sec
  mapRowsGet "Sample_ID" rs

/-- Error text of the missing-ID failure (source line 244). -/
def missingConvertIdMsg (v : Value) : String :=
  "Sample_ID " ++ pyStr v ++
    " is defined in the BCLConvert_Data section, but not in the Cloud_Data section."

/-- Final loop of `basespacelogic` (source lines 242-244). -/
def checkConvertIds (cloudIds : List Value) : List Value → Except String Unit
  | [] => .ok ()
  | d :: rest =>
    if d ∈ cloudIds then checkConvertIds cloudIds rest
    else .error (missingConvertIdMsg d)

/-- `basespacelogic`: cross-section consistency between `Cloud_Data` and
`BCLConvert_Data`. -/
def basespacelogic (doc : SectionedSheet) : Except String Unit := do
  cloudGuard doc
  convertGuard doc
  let cloudIds ← computeSampleIds doc "Cloud_Data"
  let convertIds ← computeSampleIds doc "BCLConvert_Data"
  checkConvertIds cloudIds convertIds

/-! ### Grouping (`SampleSheetV2.__init__`) and rendering (`to_string`) -/

/-- Per-application entry of `self.applications`: the inner dict with
optional `'settings'` and `'data'` keys. -/
structure AppEntry where
  appSettings : Option Section := none
  appData : Option Section := none
deriving DecidableEq, Repr

/-- The constructed `SampleSheetV2` object.  `headerAttr`/`readsAttr`
model the `self.header` and `self.reads` instance attributes, which the
constructor only assigns when the corresponding section exists. -/
structure SampleSheetV2 where
  headerAttr : Option Section := none
  readsAttr : Option Section := none
  applications : List (String × AppEntry) := []
deriving DecidableEq, Repr

/-- Membership in `self.__dict__.keys()`: the attribute names actually
assigned by `__init__` are `applications`, `header` and `reads` (the
latter two only when the matching section was seen).  Note the names are
the lowercase identifiers used in the assignments. -/
def SampleSheetV2.dictContains (s : SampleSheetV2) (k : String) : Bool :=
  if k = "applications" then true
  else if k = "header" then s.headerAttr.isSome
  else if k = "reads" then s.readsAttr.isSome
  else false

/-- Group-1 of the regex `^(.*)_(Settings|Data)$` when the suffix matches:
the key with the final recognized suffix stripped. -/
def stripSuffix (k : String) (suf : String) : String :=
  String.mk (k.data.take (k.length - suf.length))

/-- Characterwise prefix test (`needle` is a prefix of `hay`). -/
def charsPrefix : List Char → List Char → Bool
  | _, [] => true
  | [], _ :: _ => false
  | h :: ht, n :: nt => (h = n) && charsPrefix ht nt

/-- Python `key.endswith(suf)`. -/
def endsWithStr (k suf : String) : Bool :=
  charsPrefix k.data.reverse suf.data.reverse

/-- `applications[name]['settings'] = sec`, creating the entry at the end
of the ordered dict when `name` is new. -/
def setAppSettings (apps : List (String × AppEntry)) (name : String) (sec : Section) :
    List (String × AppEntry) :=
  if (apps.map Prod.fst).contains name then
    apps.map (fun p => if p.1 = name then (p.1, { p.2 with appSettings := some sec }) else p)
  else apps ++ [(name, { appSettings := some sec })]

/-- `applications[name]['data'] = sec`, creating the entry at the end of
the ordered dict when `name` is new. -/
def setAppData (apps : List (String × AppEntry)) (name : String) (sec : Section) :
    List (String × AppEntry) :=
  if (apps.map Prod.fst).contains name then
    apps.map (fun p => if p.1 = name then (p.1, { p.2 with appData := some sec }) else p)
  else apps ++ [(name, { appData := some sec })]

/-- One iteration of the grouping loop `for key in secsheet.keys()`
(source lines 293-306), with the source's branch order. -/
def groupStep (st : SampleSheetV2) (entry : String × Section) : SampleSheetV2 :=
  if endsWithStr entry.1 "_Settings" then
    { st with applications := setAppSettings st.applications (stripSuffix entry.1 "_Settings") entry.2 }
  else if endsWithStr entry.1 "_Data" then
    { st with applications := setAppData st.applications (stripSuffix entry.1 "_Data") entry.2 }
  else if entry.1 = "Header" then { st with headerAttr := some entry.2 }
  else if entry.1 = "Reads" then { st with readsAttr := some entry.2 }
  else st

/-- The grouping phase of `__init__`: route every section of the sheet. -/
def group (doc : SectionedSheet) : SampleSheetV2 :=
  doc.foldl groupStep {}

/-- Modelled from the spec: `settings_to_string` lives in the
sectioned-sheet writer module `ilsa2/sectionedsheet.py`, which is not
among the given sources.  Per the spec (sections 4.5 and 6) a settings
section renders as `key=value` lines. -/
def settings_to_string : Section → String
  | .settings kvs => String.join (kvs.map (fun kv => kv.1 ++ "=" ++ pyStr kv.2 ++ "\n"))
  | .rows _ => ""

/-- Modelled from the spec: `data_to_string` lives in the sectioned-sheet
writer module `ilsa2/sectionedsheet.py`, which is not among the given
sources.  Per the spec (sections 4.5 and 6) a data section renders as a
header line of column names (union of row keys, first-row order) followed
by one comma-joined line per row. -/
def data_to_string : Section → String
  | .rows rs =>
    let cols := rs.foldl
      (fun acc r => r.foldl (fun a kv => if a.contains kv.1 then a else a ++ [kv.1]) acc) []
    String.intercalate "," cols ++ "\n" ++
      String.join (rs.map (fun r =>
        String.intercalate ","
          (cols.map (fun c =>
            match alookup r c with
            | some v => pyStr v
            | none => "")) ++ "\n"))
  | .settings _ => ""

/-- Translation of `SampleSheetV2.to_string` (source lines 308-323).  The
guards reproduce the source's membership tests on `self.__dict__.keys()`:
`'header'` for the Header block and `'Reads'` for the Reads block. -/
def SampleSheetV2.to_string (s : SampleSheetV2) : String :=
  let res := ""
  let res := if s.dictContains "header" then
      res ++ "[Header]\n" ++ settings_to_string (s.headerAttr.getD (.settings []))
    else res
  let res := if s.dictContains "Reads" then
      res ++ "[Reads]\n" ++ settings_to_string (s.readsAttr.getD (.settings []))
    else res
  s.applications.foldl
    (fun res app =>
      let res := match app.2.appSettings with
        | some sec => res ++ "[" ++ app.1 ++ "_Settings]\n" ++ settings_to_string sec
        | none => res
      match app.2.appData with
      | some sec => res ++ "[" ++ app.1 ++ "_Data]\n" ++ data_to_string sec
      | none => res)
    res

/-! ### The constructor's validation phase -/

/-- One validator as dispatched by `__init__`: a schema dict handed to the
external structural validator, or a logic function called directly.  The
structural validator `jsonschema.validate` is an external collaborator
(spec section 6); both variants are therefore carried as their pass/fail
check over the document. -/
inductive Validator where
  | schema (check : SectionedSheet → Except String Unit)
  | func (f : SectionedSheet → Except String Unit)

/-- Dispatch on one validator (source lines 279-283). -/
def runValidator (doc : SectionedSheet) : Validator → Except String Unit
  | .schema c => c doc
  | .func f => f doc

/-- The loop `for schema in validation` with fail-fast exceptions. -/
def runValidators (doc : SectionedSheet) : List Validator → Except String Unit
  | [] => .ok ()
  | v :: rest => do
    runValidator doc v
    runValidators doc rest

/-- The `validation` argument of `__init__`: `None`, a list, or a single
validator. -/
inductive ValidationArg where
  | pynone
  | pylist (vs : List Validator)
  | single (v : Validator)

/-- Normalization of the `validation` argument (source lines 272-277).
The `None` branch only assigns the unused local `schemata = []`; the
subsequent `for schema in validation` then iterates over `None` itself
and raises `TypeError`. -/
def normalizeValidation : ValidationArg → Except String (List Validator)
  | .pynone => .error "TypeError: 'NoneType' object is not iterable"
  | .pylist vs => .ok vs
  | .single v => .ok [v]

/-- `SampleSheetV2.__init__`: normalize the validation argument, run every
validator in order against the full document, then group the sections.
An exception anywhere aborts construction. -/
def mkSampleSheetV2 (doc : SectionedSheet) (validation : ValidationArg) :
    Except String SampleSheetV2 := do
  let vs ← normalizeValidation validation
  runValidators doc vs
  pure (group doc)

/-- Position of the first failing validator, as an error, in list order. -/
def firstValidatorFailure (doc : SectionedSheet) : List Validator → Option String
  | [] => none
  | v :: rest =>
    match runValidator doc v with
    | .error e => some e
    | .ok _ => firstValidatorFailure doc rest

/-! ### State-threaded forms of the validators

Python passes the document by reference, so the validators could in
principle mutate it.  The forms below thread the document through every
statement block of the two validators; because no statement of the source
assigns into the document, every leaf returns the threaded document
untouched. -/

/-- A checked step that threads the document state and produces a value;
an exception carries the state at the raise point. -/
def StVal (α : Type) := SectionedSheet → Except String α × SectionedSheet

/-- Lift a read-only statement block: it returns the document unchanged
because the underlying block never writes into it. -/
def liftVal {α : Type} (f : SectionedSheet → Except String α) : StVal α :=
  fun doc => (f doc, doc)

/-- Sequencing of state-threaded steps with fail-fast exceptions. -/
def bindVal {α β : Type} (a : StVal α) (b : α → StVal β) : StVal β :=
  fun doc =>
    match a doc with
    | (.error e, d) => (.error e, d)
    | (.ok x, d) => b x d

/-- Statement-threaded form of `illuminasamplesheetv2logic`. -/
def illuminasamplesheetv2logicSt : StVal Unit :=
  bindVal (liftVal checkOverrideCyclesRule) (fun _ =>
  bindVal (liftVal checkAdapterRead1Rule) (fun _ =>
  bindVal (liftVal checkAdapterRead2Rule) (fun _ =>
  bindVal (liftVal checkBarcodeMismatches1Rule) (fun _ =>
  bindVal (liftVal checkBarcodeMismatches2Rule) (fun _ =>
  liftVal checkBCLConvertData)))))

/-- Statement-threaded form of `basespacelogic`. -/
def basespacelogicSt : StVal Unit :=
  bindVal (liftVal cloudGuard) (fun _ =>
  bindVal (liftVal convertGuard) (fun _ =>
  bindVal (liftVal (fun d => computeSampleIds d "Cloud_Data")) (fun cloudIds =>
  bindVal (liftVal (fun d => computeSampleIds d "BCLConvert_Data")) (fun convertIds =>
  liftVal (fun _ => checkConvertIds cloudIds convertIds)))))

/-- Does `needle` occur anywhere inside `hay`? -/
def containsSub (needle : List Char) : List Char → Bool
  | [] => charsPrefix [] needle
  | c :: rest => charsPrefix (c :: rest) needle || containsSub needle rest

/-! ### Concrete documents used as failing inputs and witnesses -/

/-- Reads section declaring two segments. -/
def c1reads : Section := .settings [("Read1Cycles", .int 1), ("Read2Cycles", .int 1)]

/-- Document whose OverrideCycles expansion covers only `Read1Cycles`
although the Reads section also declares `Read2Cycles`. -/
def c1doc : SectionedSheet :=
  [("Reads", c1reads),
   ("BCLConvert_Settings", .settings
      [("SoftwareVersion", .str "1.0.0"), ("OverrideCycles", .str "Y1")])]

/-- Document with a Header and a Reads section and no applications. -/
def c2doc : SectionedSheet :=
  [("Header", .settings [("FileFormatVersion", .int 2)]),
   ("Reads", .settings [("Read1Cycles", .int 1)])]

/-- Document whose AdapterRead1 (4 bases) is far shorter than the declared
151 `Read1Cycles`. -/
def c5doc : SectionedSheet :=
  [("Reads", .settings [("Read1Cycles", .int 151)]),
   ("BCLConvert_Settings", .settings [("AdapterRead1", .str "ACGT")])]

/-! ### Specification-side definitions used to state the claims -/

/-- Join segment strings with `;` separators (inverse of the split). -/
def joinSemi : List (List Char) → List Char
  | [] => []
  | [x] => x
  | x :: xs => x ++ ';' :: joinSemi xs

/-- A segment that conforms to the grammar: a non-empty sequence of
LETTER-DIGITS pairs, LETTER in `{N,Y,I,U}` and DIGITS a non-empty
decimal run. -/
abbrev ConformPairs (seg : List (Char × List Char)) : Prop :=
  seg ≠ [] ∧ ∀ p ∈ seg, isNYIU p.1 = true ∧ p.2 ≠ [] ∧ p.2.all Char.isDigit = true

/-- Text of a conforming segment: the letters and digit runs in order. -/
def renderSegPairs (seg : List (Char × List Char)) : List Char :=
  (seg.map (fun p => p.1 :: p.2)).flatten

/-- Expansion the spec prescribes for a conforming segment: each letter
repeated by its digit count, concatenated. -/
def expandPairs (seg : List (Char × List Char)) : List Char :=
  (seg.map (fun p => List.replicate (digitsToNat p.2) p.1)).flatten

/-- Positional segment-name assignment fixed by segment count. -/
def positionalNames : Nat → List String
  | 2 => ["Read1Cycles", "Read2Cycles"]
  | 3 => ["Read1Cycles", "Index1Cycles", "Read2Cycles"]
  | 4 => ["Read1Cycles", "Index1Cycles", "Index2Cycles", "Read2Cycles"]
  | _ => ["Read1Cycles"]

/-- The too-many-elements error text of `parse_overrideCycles`. -/
def tooManyMsg (s : String) : String :=
  "OverrideCycles " ++ s ++ " defines too many elements."

/-- String content of a row field, when present and a string. -/
def rowStr (r : Row) (k : String) : Option String :=
  match alookup r k with
  | some (.str s) => some s
  | _ => none

/-- Collect a string column across rows, when every row has it. -/
def mapRowsStr (k : String) : List Row → Option (List String)
  | [] => some []
  | r :: rest =>
    match rowStr r k, mapRowsStr k rest with
    | some s, some ss => some (s :: ss)
    | _, _ => none

/-- Composite demultiplexing keys per the claim: `Index` concatenated
with `Index2` when `Index2` is present, else `Index` alone.  Defined when
presence of `Index2` is uniform across rows and the fields are strings. -/
def rowsCompositeKeys (rows : List Row) : Option (List String) :=
  if rows.all (fun r => rowHas r "Index2") then
    match mapRowsStr "Index" rows, mapRowsStr "Index2" rows with
    | some is1, some is2 => some (List.zipWith (fun a b => a ++ b) is1 is2)
    | _, _ => none
  else if rows.all (fun r => !(rowHas r "Index2")) then
    mapRowsStr "Index" rows
  else none

/-- Cloud/demultiplexing document with one demultiplexing Sample_ID
absent from the cloud section. -/
def c7doc : SectionedSheet :=
  [("Cloud_Data", .rows [[("Sample_ID", .str "s1")]]),
   ("BCLConvert_Data", .rows [[("Sample_ID", .str "s1")], [("Sample_ID", .str "s2")]])]

/-! ### Helper lemmas -/

@[simp] theorem exceptBind_ok {α β : Type} (a : α) (f : α → Except String β) :
    (Except.ok a >>= f) = f a := rfl

@[simp] theorem exceptBind_error {α β : Type} (e : String) (f : α → Except String β) :
    ((Except.error e : Except String α) >>= f) = Except.error e := rfl

@[simp] theorem exceptPure {α : Type} (a : α) :
    (pure a : Except String α) = Except.ok a := rfl

/-! ### Claim theorems -/

/-- C1: the claim states that with OverrideCycles present validation
succeeds only if every segment declared in the Reads section appears in
the expansion.  The code filters the candidate segment names by
membership in the top-level `doc.keys()` instead of `doc['Reads']`, so
the coverage check never fires: `c1doc` declares `Read2Cycles` in Reads,
its expansion produces only `Read1Cycles`, and validation still
succeeds.  The error message of the dead check ("Reads defines ...")
shows the filter was intended to read the Reads section. -/
theorem C1_override_cycles_reads_coverage :
    illuminasamplesheetv2logic c1doc = .ok ()
    ∧ secHasKey c1reads "Read2Cycles" = true
    ∧ parse_overrideCycles "Y1" = .ok [("Read1Cycles", "Y")]
    ∧ hasKey c1doc "Read1Cycles" = false := by
  exact ⟨rfl, rfl, rfl, rfl⟩

/-- C2: the claim states that a document containing a Reads section
round-trips with a `[Reads]` section in the rendered output.  The
renderer guards the Reads block with `'Reads' in self.__dict__`, but the
constructor stores the section under the attribute name `reads`, so the
guard is never true and `[Reads]` is never emitted — while the Header
block (guarded by the correctly lowercased `'header'`) is. -/
theorem C2_render_drops_reads_section :
    mkSampleSheetV2 c2doc (.pylist [.func illuminasamplesheetv2logic]) = .ok (group c2doc)
    ∧ hasKey c2doc "Reads" = true
    ∧ (group c2doc).readsAttr = some (.settings [("Read1Cycles", .int 1)])
    ∧ containsSub "[Header]".data (group c2doc).to_string.data = true
    ∧ containsSub "[Reads]".data (group c2doc).to_string.data = false := by
  exact ⟨rfl, rfl, rfl, by decide, by decide⟩

/-- C4 counterexample: the empty string deviates from the grammar (it has
no well-formed segment), yet the expander does not fail: `split(";")`
yields `[""]`, the single empty segment expands to the empty string, and
the parse returns `{Read1Cycles: ""}`. -/
theorem C4_empty_string_parses :
    parse_overrideCycles "" = .ok [("Read1Cycles", "")] := rfl

/-- C5: the claim states the AdapterRead1 rule passes when the adapter is
no longer than `Read1Cycles`.  The code compares
`len(AdapterRead1) > len(doc['Reads']['Read1Cycles'])`, applying `len` to
the integer cycle count, which raises `TypeError` for every document
reaching the comparison: `c5doc` has a 4-base adapter against 151 cycles
and still fails. -/
theorem C5_adapter_read1_typeerror :
    illuminasamplesheetv2logic c5doc = .error "TypeError: object of type 'int' has no len()"
    ∧ "ACGT".length ≤ 151 := by
  exact ⟨rfl, by decide⟩

/-- C10: passing `validation=None` to the constructor assigns only the
unused local `schemata = []` and then iterates over `None`, raising
`TypeError`; no sheet is constructed. -/
theorem C10_validation_none_raises :
    ∀ doc : SectionedSheet,
      mkSampleSheetV2 doc .pynone = .error "TypeError: 'NoneType' object is not iterable" :=
  fun _ => rfl

/-- Running the validators and then building the sheet is the same as
stopping at the first validator failure. -/
theorem runValidators_first_failure (doc : SectionedSheet) :
    ∀ vs : List Validator,
      (runValidators doc vs >>= fun _ => Except.ok (group doc)) =
        (match firstValidatorFailure doc vs with
         | some e => Except.error e
         | none => Except.ok (group doc)) := by
  intro vs
  induction vs with
  | nil => rfl
  | cons v rest ih =>
    simp only [runValidators, firstValidatorFailure]
    cases h : runValidator doc v with
    | error e => simp [h]
    | ok u => simpa [h] using ih

/-- C8: over any ordered validator list, construction runs the validators
in order against the full document and is aborted by the first failure,
yielding exactly that validator's error; only when every validator passes
is the grouped sheet produced — there is no partially built result. -/
theorem C8_fail_fast_construction :
    ∀ (doc : SectionedSheet) (vs : List Validator),
      mkSampleSheetV2 doc (.pylist vs) =
        (match firstValidatorFailure doc vs with
         | some e => Except.error e
         | none => Except.ok (group doc)) := by
  intro doc vs
  simpa [mkSampleSheetV2, normalizeValidation] using runValidators_first_failure doc vs

/-- C9: both validators are pure checks — threading the document through
every statement block returns it unchanged whether the run succeeds or
raises, and the threaded result agrees with the plain validators. -/
theorem C9_validators_pure :
    ∀ doc : SectionedSheet,
      illuminasamplesheetv2logicSt doc = (illuminasamplesheetv2logic doc, doc)
      ∧ basespacelogicSt doc = (basespacelogic doc, doc) := by
  intro doc
  constructor
  · simp only [illuminasamplesheetv2logicSt, illuminasamplesheetv2logic, bindVal, liftVal]
    cases h1 : checkOverrideCyclesRule doc <;> simp [h1] <;>
      cases h2 : checkAdapterRead1Rule doc <;> simp [h2] <;>
      cases h3 : checkAdapterRead2Rule doc <;> simp [h3] <;>
      cases h4 : checkBarcodeMismatches1Rule doc <;> simp [h4] <;>
      cases h5 : checkBarcodeMismatches2Rule doc <;> simp [h5]
  · simp only [basespacelogicSt, basespacelogic, bindVal, liftVal]
    cases h1 : cloudGuard doc <;> simp [h1] <;>
      cases h2 : convertGuard doc <;> simp [h2] <;>
      cases h3 : computeSampleIds doc "Cloud_Data" <;> simp [h3] <;>
      cases h4 : computeSampleIds doc "BCLConvert_Data" <;> simp [h4]

/-- The final loop of `basespacelogic` stops at the first demultiplexing
ID absent from the cloud IDs, and passes when there is none. -/
theorem checkConvertIds_eq (cids : List Value) :
    ∀ bids : List Value,
      checkConvertIds cids bids =
        (match bids.find? (fun b => !(decide (b ∈ cids))) with
         | some b => Except.error (missingConvertIdMsg b)
         | none => Except.ok ()) := by
  intro bids
  induction bids with
  | nil => rfl
  | cons d rest ih =>
    simp only [checkConvertIds, List.find?]
    by_cases h : d ∈ cids
    · simpa [h] using ih
    · simp [h]

/-- C7: the cross-section validator fails naming the missing section when
`Cloud_Data` or `BCLConvert_Data` is absent; with both present it fails,
naming the ID, exactly on the first demultiplexing `Sample_ID` missing
from the cloud IDs, and succeeds when every demultiplexing ID occurs
there — cloud IDs absent from the demultiplexing section are never
checked. -/
theorem C7_cross_section :
    ∀ doc : SectionedSheet,
      (alookup doc "Cloud_Data" = none → basespacelogic doc = .error "no Cloud_Data section")
      ∧ (∀ csec : Section, alookup doc "Cloud_Data" = some csec →
          alookup doc "BCLConvert_Data" = none →
          basespacelogic doc = .error "no BCLConvert_Data section")
      ∧ (∀ (crows brows : List Row) (cids bids : List Value),
          alookup doc "Cloud_Data" = some (.rows crows) →
          alookup doc "BCLConvert_Data" = some (.rows brows) →
          mapRowsGet "Sample_ID" crows = .ok cids →
          mapRowsGet "Sample_ID" brows = .ok bids →
          basespacelogic doc =
            (match bids.find? (fun b => !(decide (b ∈ cids))) with
             | some b => Except.error (missingConvertIdMsg b)
             | none => Except.ok ())) := by
  intro doc
  refine ⟨?_, ?_, ?_⟩
  · intro h
    simp [basespacelogic, cloudGuard, hasKey, h]
  · intro csec h1 h2
    simp [basespacelogic, cloudGuard, convertGuard, hasKey, h1, h2]
  · intro crows brows cids bids h1 h2 h3 h4
    simp [basespacelogic, cloudGuard, convertGuard, hasKey, h1, h2,
      computeSampleIds, getSec, secIterRows, h3, h4, checkConvertIds_eq]

/-- C7 witness: on `c7doc` the demultiplexing ID `s2` is missing from the
cloud section and the validator reports it. -/
theorem C7_cross_section_witness :
    basespacelogic c7doc =
      .error "Sample_ID s2 is defined in the BCLConvert_Data section, but not in the Cloud_Data section." := by
  have h := (C7_cross_section c7doc).2.2
    [[("Sample_ID", .str "s1")]]
    [[("Sample_ID", .str "s1")], [("Sample_ID", .str "s2")]]
    [.str "s1"] [.str "s1", .str "s2"] rfl rfl rfl rfl
  exact h.trans rfl

/-- A successful `rowStr` pins down the underlying lookup. -/
theorem rowStr_some {r : Row} {k s : String} (h : rowStr r k = some s) :
    alookup r k = some (Value.str s) := by
  unfold rowStr at h
  split at h
  · next s2 heq =>
      cases h
      exact heq
  · cases h

/-- When `mapRowsStr` succeeds on a non-empty row list, the head row has
the column. -/
theorem rowHas_of_mapRowsStr {k : String} {r0 : Row} {rest : List Row} {ss : List String}
    (h : mapRowsStr k (r0 :: rest) = some ss) : rowHas r0 k = true := by
  unfold mapRowsStr at h
  split at h
  · next s ss2 h1 h2 =>
      unfold rowHas hasKey
      rw [rowStr_some h1]
      rfl
  · cases h

/-- Agreement of the code's comprehension with the spec-side column
extraction: when every row has the string column, the code collects
exactly those strings. -/
theorem mapRowsGet_of_mapRowsStr (k : String) :
    ∀ (rows : List Row) (ss : List String), mapRowsStr k rows = some ss →
      mapRowsGet k rows = .ok (ss.map Value.str) := by
  intro rows
  induction rows with
  | nil =>
      intro ss h
      cases h
      rfl
  | cons r rest ih =>
      intro ss h
      unfold mapRowsStr at h
      split at h
      · next s tail h1 h2 =>
          cases h
          unfold mapRowsGet rowGet
          rw [rowStr_some h1]
          simp [ih tail h2]
      · cases h

/-- Adding zipped string values concatenates them pairwise. -/
theorem zipAdd_strs :
    ∀ is1 is2 : List String,
      zipAdd (List.zipWith Prod.mk (is1.map Value.str) (is2.map Value.str)) =
        Except.ok ((List.zipWith (fun a b => a ++ b) is1 is2).map Value.str) := by
  intro is1
  induction is1 with
  | nil => intro is2; rfl
  | cons a t ih =>
      intro is2
      cases is2 with
      | nil => rfl
      | cons b t2 =>
          simp only [List.map_cons, List.zipWith_cons_cons, zipAdd, pyAdd,
            exceptBind_ok, exceptPure, ih t2]

/-- The `len(set(l)) == len(l)` test decides exactly `Nodup`. -/
theorem dedup_length_eq_iff {α : Type} [DecidableEq α] (l : List α) :
    l.dedup.length = l.length ↔ l.Nodup := by
  constructor
  · intro h
    have hs : List.Sublist l.dedup l := List.dedup_sublist l
    have he : l.dedup = l := hs.eq_of_length h
    rw [← he]
    exact l.nodup_dedup
  · intro h
    rw [List.dedup_eq_self.2 h]

/-- `Value.str` is injective, so mapping it preserves `Nodup`. -/
theorem nodup_map_str (l : List String) : (l.map Value.str).Nodup ↔ l.Nodup :=
  List.nodup_map_iff (fun a b h => by cases h; rfl)

/-- A failing data block makes the whole semantic validator fail (either
an earlier rule already failed, or the data block's error surfaces). -/
theorem illum_error_of_data {doc : SectionedSheet} {e : String}
    (h : checkBCLConvertData doc = .error e) :
    ∃ e2, illuminasamplesheetv2logic doc = .error e2 := by
  cases h1 : checkOverrideCyclesRule doc with
  | error e1 => exact ⟨e1, by simp [illuminasamplesheetv2logic, h1]⟩
  | ok _ =>
  cases h2 : checkAdapterRead1Rule doc with
  | error e1 => exact ⟨e1, by simp [illuminasamplesheetv2logic, h1, h2]⟩
  | ok _ =>
  cases h3 : checkAdapterRead2Rule doc with
  | error e1 => exact ⟨e1, by simp [illuminasamplesheetv2logic, h1, h2, h3]⟩
  | ok _ =>
  cases h4 : checkBarcodeMismatches1Rule doc with
  | error e1 => exact ⟨e1, by simp [illuminasamplesheetv2logic, h1, h2, h3, h4]⟩
  | ok _ =>
  cases h5 : checkBarcodeMismatches2Rule doc with
  | error e1 => exact ⟨e1, by simp [illuminasamplesheetv2logic, h1, h2, h3, h4, h5]⟩
  | ok _ =>
      exact ⟨e, by simp [illuminasamplesheetv2logic, h1, h2, h3, h4, h5, h]⟩

/-- The `len(set(index)) != len(index)` conditional over string keys is
the `Nodup` test on the keys. -/
theorem dedupTest_eq (ks : List String) :
    ((if (ks.map Value.str).dedup.length ≠ (ks.map Value.str).length then
        Except.error "Indices are not unique." else Except.ok ()) : Except String Unit) =
      (if ks.Nodup then Except.ok () else Except.error "Indices are not unique.") := by
  by_cases hnd : ks.Nodup
  · have hlen : (ks.map Value.str).dedup.length = (ks.map Value.str).length :=
      (dedup_length_eq_iff _).2 ((nodup_map_str ks).2 hnd)
    rw [if_neg (by simp [hlen]), if_pos hnd]
  · have hlen : (ks.map Value.str).dedup.length ≠ (ks.map Value.str).length :=
      fun he => hnd ((nodup_map_str ks).1 ((dedup_length_eq_iff _).1 he))
    rw [if_pos hlen, if_neg hnd]

/-- With at least two rows and well-formed composite keys, the data block
reduces to the `Nodup` test on those keys. -/
theorem checkBCLConvertData_eq {doc : SectionedSheet} {rows : List Row} {ks : List String}
    (hsec : alookup doc "BCLConvert_Data" = some (Section.rows rows))
    (hks : rowsCompositeKeys rows = some ks)
    (h2 : 2 ≤ rows.length) :
    checkBCLConvertData doc =
      (if ks.Nodup then Except.ok () else Except.error "Indices are not unique.") := by
  obtain ⟨r0, rest, rfl⟩ : ∃ r0 rest, rows = r0 :: rest := by
    cases rows with
    | nil => simp at h2
    | cons a t => exact ⟨a, t, rfl⟩
  have hlt : 1 < pySecLen (Section.rows (r0 :: rest)) := by
    simpa [pySecLen] using h2
  unfold rowsCompositeKeys at hks
  split at hks
  · -- every row has Index2
    cases e1 : mapRowsStr "Index" (r0 :: rest) with
    | none => rw [e1] at hks; simp at hks
    | some is1 =>
    cases e2 : mapRowsStr "Index2" (r0 :: rest) with
    | none => rw [e1, e2] at hks; simp at hks
    | some is2 =>
    rw [e1, e2] at hks
    simp only [Option.some.injEq] at hks
    subst hks
    have hIdx : rowHas r0 "Index" = true := rowHas_of_mapRowsStr e1
    have hIdx2 : rowHas r0 "Index2" = true := rowHas_of_mapRowsStr e2
    have hm1 := mapRowsGet_of_mapRowsStr "Index" _ _ e1
    have hm2 := mapRowsGet_of_mapRowsStr "Index2" _ _ e2
    rw [show checkBCLConvertData doc =
      (if rowHas r0 "Index" then do
        let index1 ← mapRowsGet "Index" (r0 :: rest)
        let index ←
          (if rowHas r0 "Index2" then do
            let index2 ← mapRowsGet "Index2" (r0 :: rest)
            zipAdd (index1.zip index2)
          else pure index1)
        if index.dedup.length ≠ index.length then
          Except.error "Indices are not unique."
        else Except.ok ()
      else
        Except.error "No Index found in BCLConvert_Data, although it contains more than one sample")
      from by simp only [checkBCLConvertData, hsec]; rw [if_pos hlt]]
    rw [hIdx, hIdx2, if_pos rfl, hm1, exceptBind_ok, if_pos rfl, hm2, exceptBind_ok]
    rw [show (List.map Value.str is1).zip (List.map Value.str is2) =
      List.zipWith Prod.mk (List.map Value.str is1) (List.map Value.str is2) from rfl]
    rw [zipAdd_strs is1 is2, exceptBind_ok]
    exact dedupTest_eq _
  · -- no row has Index2
    split at hks
    · have hIdx : rowHas r0 "Index" = true := rowHas_of_mapRowsStr hks
      next hall hall2 =>
      have hIdx2 : rowHas r0 "Index2" = false := by
        have := List.all_eq_true.1 hall2 r0 (by simp)
        simpa using this
      have hm1 := mapRowsGet_of_mapRowsStr "Index" _ _ hks
      rw [show checkBCLConvertData doc =
        (if rowHas r0 "Index" then do
          let index1 ← mapRowsGet "Index" (r0 :: rest)
          let index ←
            (if rowHas r0 "Index2" then do
              let index2 ← mapRowsGet "Index2" (r0 :: rest)
              zipAdd (index1.zip index2)
            else pure index1)
          if index.dedup.length ≠ index.length then
            Except.error "Indices are not unique."
          else Except.ok ()
        else
          Except.error "No Index found in BCLConvert_Data, although it contains more than one sample")
        from by simp only [checkBCLConvertData, hsec]; rw [if_pos hlt]]
      rw [hIdx, hIdx2, if_pos rfl, hm1, exceptBind_ok, if_neg (by simp), exceptPure,
        exceptBind_ok]
      exact dedupTest_eq _
    · cases hks

/-- C6: with two or more demultiplexing rows and well-defined composite
keys (`Index` plus `Index2` when present, else `Index` alone), the
uniqueness block passes exactly when the keys are pairwise distinct, any
duplicate aborts the whole semantic validation, and a single-row data
section is exempt. -/
theorem C6_index_uniqueness :
    ∀ (doc : SectionedSheet) (rows : List Row) (ks : List String),
      alookup doc "BCLConvert_Data" = some (Section.rows rows) →
      rowsCompositeKeys rows = some ks →
      ((2 ≤ rows.length →
        (checkBCLConvertData doc = .ok () ↔ ks.Nodup)
        ∧ (¬ ks.Nodup → ∃ e, illuminasamplesheetv2logic doc = .error e))
      ∧ (rows.length = 1 → checkBCLConvertData doc = .ok ())) := by
  intro doc rows ks hsec hks
  constructor
  · intro h2
    have key := checkBCLConvertData_eq hsec hks h2
    constructor
    · rw [key]
      by_cases hnd : ks.Nodup <;> simp [hnd]
    · intro hnd
      have hdata : checkBCLConvertData doc = .error "Indices are not unique." := by
        rw [key]
        simp [hnd]
      exact illum_error_of_data hdata
  · intro h1
    simp [checkBCLConvertData, hsec, pySecLen, h1]

/-- C6 witness: two rows with distinct `Index`+`Index2` keys pass the
uniqueness block. -/
theorem C6_index_uniqueness_witness :
    checkBCLConvertData
      [("BCLConvert_Data", Section.rows
        [[("Index", Value.str "A"), ("Index2", Value.str "C")],
         [("Index", Value.str "G"), ("Index2", Value.str "T")]])] = .ok () := by
  exact ((C6_index_uniqueness
      [("BCLConvert_Data", Section.rows
        [[("Index", Value.str "A"), ("Index2", Value.str "C")],
         [("Index", Value.str "G"), ("Index2", Value.str "T")]])]
      [[("Index", Value.str "A"), ("Index2", Value.str "C")],
       [("Index", Value.str "G"), ("Index2", Value.str "T")]]
      ["AC", "GT"] rfl rfl).1 (by decide)).1.mpr (by decide)

/-- C4 amended: only the segment count is policed, and only from above —
a string whose `;`-split yields five or more segments always fails (with
the too-many-elements error naming the offending string whenever the
first segment expands), while other grammar deviations are not detected
by the expander: in particular the empty string parses successfully to
`{Read1Cycles: ""}`. -/
theorem C4_segment_count_amended :
    (∀ s : String, 5 ≤ (pySplitSemi s.data).length →
      ∃ e, parse_overrideCycles s = .error e)
    ∧ (∀ (s : String) (e0 : List Char), 5 ≤ (pySplitSemi s.data).length →
        expandSeg ((pySplitSemi s.data).getD 0 []) = .ok e0 →
        parse_overrideCycles s = .error (tooManyMsg s))
    ∧ parse_overrideCycles "" = .ok [("Read1Cycles", "")] := by
  have hmain : ∀ (s : String) (e0 : List Char), 5 ≤ (pySplitSemi s.data).length →
      expandSeg ((pySplitSemi s.data).getD 0 []) = .ok e0 →
      parse_overrideCycles s = .error (tooManyMsg s) := by
    intro s e0 h hE
    simp only [parse_overrideCycles]
    rw [if_neg (by omega)]
    simp only [hE, exceptBind_ok]
    rw [if_neg (by omega), if_neg (by omega), if_neg (by omega), if_neg (by omega)]
    rfl
  refine ⟨?_, hmain, rfl⟩
  intro s h
  cases hE : expandSeg ((pySplitSemi s.data).getD 0 []) with
  | error e =>
      refine ⟨e, ?_⟩
      simp only [parse_overrideCycles]
      rw [if_neg (by omega)]
      simp only [hE, exceptBind_error]
  | ok e0 => exact ⟨tooManyMsg s, hmain s e0 h hE⟩

/-- C4 witness: a five-segment cycle string fails with the error naming
the string. -/
theorem C4_segment_count_amended_witness :
    parse_overrideCycles "Y1;Y1;Y1;Y1;Y1" = .error (tooManyMsg "Y1;Y1;Y1;Y1;Y1") :=
  C4_segment_count_amended.2.1 "Y1;Y1;Y1;Y1;Y1" ['Y'] (by decide) rfl

/-! ### Lemmas about the cycle-string expander on conforming input -/

theorem isNYIU_cases {c : Char} (h : isNYIU c = true) :
    c = 'N' ∨ c = 'Y' ∨ c = 'I' ∨ c = 'U' := by
  simp only [isNYIU, Bool.or_eq_true, beq_iff_eq] at h
  tauto

theorem NYIU_not_digit {c : Char} (h : isNYIU c = true) : Char.isDigit c = false := by
  rcases isNYIU_cases h with rfl | rfl | rfl | rfl <;> decide

theorem NYIU_ne_semi {c : Char} (h : isNYIU c = true) : c ≠ ';' := by
  rcases isNYIU_cases h with rfl | rfl | rfl | rfl <;> decide

theorem digit_not_NYIU {c : Char} (h : Char.isDigit c = true) : isNYIU c = false := by
  cases hn : isNYIU c
  · rfl
  · rw [NYIU_not_digit hn] at h
    cases h

theorem digit_ne_semi {c : Char} (h : Char.isDigit c = true) : c ≠ ';' := by
  intro he
  rw [he] at h
  cases h

/-- Splitting a semicolon-free string yields the single segment. -/
theorem pySplitSemi_no_semi : ∀ x : List Char, ';' ∉ x → pySplitSemi x = [x] := by
  intro x
  induction x with
  | nil => intro _; rfl
  | cons c t ih =>
      intro h
      have hc : ¬ (c = ';') := fun he => h (by simp [he])
      have ht : ';' ∉ t := fun hm => h (List.mem_cons_of_mem c hm)
      unfold pySplitSemi
      rw [if_neg hc, ih ht]

/-- Splitting past one semicolon peels off the first segment. -/
theorem pySplitSemi_append_semi : ∀ x r : List Char, ';' ∉ x →
    pySplitSemi (x ++ ';' :: r) = x :: pySplitSemi r := by
  intro x
  induction x with
  | nil =>
      intro r _
      simp [pySplitSemi]
  | cons c t ih =>
      intro r h
      have hc : ¬ (c = ';') := fun he => h (by simp [he])
      have ht : ';' ∉ t := fun hm => h (List.mem_cons_of_mem c hm)
      rw [List.cons_append]
      conv_lhs => rw [pySplitSemi]
      rw [if_neg hc, ih r ht]

/-- The split is a left inverse of the semicolon join on semicolon-free
segments. -/
theorem pySplitSemi_joinSemi : ∀ xs : List (List Char), xs ≠ [] →
    (∀ x ∈ xs, ';' ∉ x) → pySplitSemi (joinSemi xs) = xs := by
  intro xs
  induction xs with
  | nil => intro h _; exact absurd rfl h
  | cons x t ih =>
      intro _ hall
      cases t with
      | nil => exact pySplitSemi_no_semi x (hall x (by simp))
      | cons y ys =>
          show pySplitSemi (x ++ ';' :: joinSemi (y :: ys)) = x :: y :: ys
          rw [pySplitSemi_append_semi x _ (hall x (by simp))]
          rw [ih (by simp) (fun z hz => hall z (List.mem_cons_of_mem x hz))]

/-- Rendering a pair list prepends the first letter to the rest. -/
theorem renderSegPairs_cons (p : Char × List Char) (seg : List (Char × List Char)) :
    renderSegPairs (p :: seg) = p.1 :: (p.2 ++ renderSegPairs seg) := by
  simp [renderSegPairs]

/-- The first character of a non-empty conforming render is a letter. -/
theorem render_head_NYIU : ∀ (seg : List (Char × List Char)) (c0 : Char) (cs : List Char),
    (∀ p ∈ seg, isNYIU p.1 = true ∧ p.2 ≠ [] ∧ p.2.all Char.isDigit = true) →
    renderSegPairs seg = c0 :: cs → isNYIU c0 = true := by
  intro seg c0 cs hc h
  cases seg with
  | nil => simp [renderSegPairs] at h
  | cons p s' =>
      rw [renderSegPairs_cons] at h
      injection h with h1 _
      rw [← h1]
      exact (hc p (by simp)).1

/-- On a conforming segment the regex scan recovers exactly the
letter-digit pairs, one singleton letter group per pair. -/
theorem findallOCAux_render :
    ∀ (seg : List (Char × List Char)) (fuel : Nat),
      (∀ p ∈ seg, isNYIU p.1 = true ∧ p.2 ≠ [] ∧ p.2.all Char.isDigit = true) →
      (renderSegPairs seg).length ≤ fuel →
      findallOCAux fuel (renderSegPairs seg) = seg.map (fun p => ([p.1], p.2)) := by
  intro seg
  induction seg with
  | nil =>
      intro fuel _ _
      have : renderSegPairs [] = [] := rfl
      rw [this]
      cases fuel <;> rfl
  | cons p seg' ih =>
      intro fuel hc hfuel
      obtain ⟨hN, hne, hdig⟩ := hc p (by simp)
      have hc' : ∀ q ∈ seg', isNYIU q.1 = true ∧ q.2 ≠ [] ∧ q.2.all Char.isDigit = true :=
        fun q hq => hc q (List.mem_cons_of_mem p hq)
      have hdigits : ∀ d ∈ p.2, Char.isDigit d = true :=
        fun d hd => List.all_eq_true.1 hdig d hd
      obtain ⟨d0, ds, hp2⟩ : ∃ d0 ds, p.2 = d0 :: ds := by
        cases hp : p.2 with
        | nil => exact absurd hp hne
        | cons a b => exact ⟨a, b, rfl⟩
      have hd0 : Char.isDigit d0 = true := hdigits d0 (by rw [hp2]; simp)
      rw [renderSegPairs_cons] at hfuel ⊢
      cases fuel with
      | zero => simp at hfuel
      | succ f =>
          have hletters : (p.1 :: (p.2 ++ renderSegPairs seg')).takeWhile isNYIU = [p.1] := by
            rw [List.takeWhile_cons_of_pos hN, hp2, List.cons_append,
              List.takeWhile_cons_of_neg (by simp [digit_not_NYIU hd0])]
          have hr1 : (p.1 :: (p.2 ++ renderSegPairs seg')).dropWhile isNYIU
              = p.2 ++ renderSegPairs seg' := by
            rw [List.dropWhile_cons_of_pos hN, hp2, List.cons_append,
              List.dropWhile_cons_of_neg (by simp [digit_not_NYIU hd0]),
              ← List.cons_append]
          have htake2 : (p.2 ++ renderSegPairs seg').takeWhile Char.isDigit = p.2 := by
            rw [List.takeWhile_append_of_pos hdigits]
            cases hs' : renderSegPairs seg' with
            | nil => simp
            | cons c0 cs =>
                rw [List.takeWhile_cons_of_neg
                  (by simp [NYIU_not_digit (render_head_NYIU seg' c0 cs hc' hs')])]
                simp
          have hr2 : (p.2 ++ renderSegPairs seg').dropWhile Char.isDigit
              = renderSegPairs seg' := by
            rw [List.dropWhile_append_of_pos hdigits]
            cases hs' : renderSegPairs seg' with
            | nil => rfl
            | cons c0 cs =>
                rw [List.dropWhile_cons_of_neg
                  (by simp [NYIU_not_digit (render_head_NYIU seg' c0 cs hc' hs')])]
          have hr3 : (match renderSegPairs seg' with
              | ';' :: t => t
              | other => other) = renderSegPairs seg' := by
            cases hs' : renderSegPairs seg' with
            | nil => rfl
            | cons c0 cs =>
                have : ¬ (c0 = ';') := NYIU_ne_semi (render_head_NYIU seg' c0 cs hc' hs')
                simp [this]
          have hbound : (renderSegPairs seg').length ≤ f := by
            rw [hp2] at hfuel
            simp [List.length_cons, List.length_append] at hfuel
            omega
          simp only [findallOCAux, if_pos hN, hletters, hr1, htake2, hr2, hr3,
            ih f hc' hbound, List.map_cons]

/-- Concatenating `n` copies of a singleton gives `n` copies of the
character. -/
theorem flatten_replicate_singleton : ∀ (n : Nat) (c : Char),
    (List.replicate n [c]).flatten = List.replicate n c := by
  intro n c
  induction n with
  | zero => rfl
  | succ m ih => simp [List.replicate_succ, ih]

/-- Expanding the recovered matches of a conforming segment repeats each
letter by its digit count. -/
theorem expandMatches_map : ∀ seg : List (Char × List Char),
    (∀ p ∈ seg, p.2 ≠ []) →
    expandMatches (seg.map (fun p => ([p.1], p.2))) = .ok (expandPairs seg) := by
  intro seg
  induction seg with
  | nil => intro _; rfl
  | cons p seg' ih =>
      intro h
      obtain ⟨d0, ds, hp2⟩ : ∃ d0 ds, p.2 = d0 :: ds := by
        cases hp : p.2 with
        | nil => exact absurd hp (h p (by simp))
        | cons a b => exact ⟨a, b, rfl⟩
      have hpy : pyIntDigits p.2 = .ok (digitsToNat p.2) := by rw [hp2]; rfl
      simp only [List.map_cons, expandMatches, hpy, exceptBind_ok,
        ih (fun q hq => h q (List.mem_cons_of_mem p hq)), exceptPure]
      simp [pyStrMul, expandPairs, flatten_replicate_singleton]

/-- The source `expand` on a conforming segment equals the spec-side
run-length expansion. -/
theorem expandSeg_render (seg : List (Char × List Char))
    (hc : ∀ p ∈ seg, isNYIU p.1 = true ∧ p.2 ≠ [] ∧ p.2.all Char.isDigit = true) :
    expandSeg (renderSegPairs seg) = .ok (expandPairs seg) := by
  unfold expandSeg findallOC
  rw [findallOCAux_render seg _ hc (le_refl _)]
  exact expandMatches_map seg (fun p hp => (hc p hp).2.1)

/-- A conforming render contains no semicolon. -/
theorem semi_not_in_render (seg : List (Char × List Char))
    (hc : ∀ p ∈ seg, isNYIU p.1 = true ∧ p.2 ≠ [] ∧ p.2.all Char.isDigit = true) :
    ';' ∉ renderSegPairs seg := by
  intro hmem
  unfold renderSegPairs at hmem
  obtain ⟨l, hl, hcl⟩ := List.mem_flatten.mp hmem
  obtain ⟨p, hp, hlp⟩ := List.mem_map.mp hl
  rw [← hlp] at hcl
  rcases List.mem_cons.mp hcl with h1 | h2
  · exact NYIU_ne_semi (hc p hp).1 h1.symm
  · have := List.all_eq_true.1 (hc p hp).2.2 ';' h2
    cases this

/-- C3: expanding `"Y151;I8;N151"` yields Read1Cycles = 151 Y's,
Index1Cycles = 8 I's, Read2Cycles = 151 N's; in general, on conforming
input the positional name assignment is fixed by segment count and each
segment expands to its letters repeated by their digit counts. -/
theorem C3_expand_positional :
    parse_overrideCycles "Y151;I8;N151" =
      .ok [("Read1Cycles", String.mk (List.replicate 151 'Y')),
           ("Index1Cycles", String.mk (List.replicate 8 'I')),
           ("Read2Cycles", String.mk (List.replicate 151 'N'))]
    ∧ ∀ (s : String) (segs : List (List (Char × List Char))),
        (∀ seg ∈ segs, ConformPairs seg) →
        1 ≤ segs.length → segs.length ≤ 4 →
        s.data = joinSemi (segs.map renderSegPairs) →
        parse_overrideCycles s =
          .ok (List.zip (positionalNames segs.length)
                (segs.map (fun seg => String.mk (expandPairs seg)))) := by
  constructor
  · rfl
  · intro s segs hc h1 h4 hs
    have hsplit : pySplitSemi s.data = segs.map renderSegPairs := by
      rw [hs]
      refine pySplitSemi_joinSemi _ ?_ ?_
      · cases segs with
        | nil => simp at h1
        | cons a t => simp
      · intro x hx
        obtain ⟨seg, hseg, hxeq⟩ := List.mem_map.mp hx
        rw [← hxeq]
        exact semi_not_in_render seg (hc seg hseg).2
    match segs, h1, h4 with
    | [a], _, _ =>
        have e0 := expandSeg_render a (hc a (by simp)).2
        simp [parse_overrideCycles, hsplit, e0, positionalNames]
    | [a, b], _, _ =>
        have e0 := expandSeg_render a (hc a (by simp)).2
        have e1 := expandSeg_render b (hc b (by simp)).2
        simp [parse_overrideCycles, hsplit, e0, e1, positionalNames]
    | [a, b, c], _, _ =>
        have e0 := expandSeg_render a (hc a (by simp)).2
        have e1 := expandSeg_render b (hc b (by simp)).2
        have e2 := expandSeg_render c (hc c (by simp)).2
        simp [parse_overrideCycles, hsplit, e0, e1, e2, positionalNames]
    | [a, b, c, d], _, _ =>
        have e0 := expandSeg_render a (hc a (by simp)).2
        have e1 := expandSeg_render b (hc b (by simp)).2
        have e2 := expandSeg_render c (hc c (by simp)).2
        have e3 := expandSeg_render d (hc d (by simp)).2
        simp [parse_overrideCycles, hsplit, e0, e1, e2, e3, positionalNames]

/-- C3 witness: the general positional law applied to the conforming
three-segment string `"Y2;I3;N1"`. -/
theorem C3_expand_positional_witness :
    parse_overrideCycles "Y2;I3;N1" =
      .ok [("Read1Cycles", "YY"), ("Index1Cycles", "III"), ("Read2Cycles", "N")] := by
  have h := C3_expand_positional.2 "Y2;I3;N1"
    [[('Y', ['2'])], [('I', ['3'])], [('N', ['1'])]]
    (by decide) (by decide) (by decide) rfl
  exact h.trans rfl

end Samshee
